import Mathlib

/-!
Verification of the opteryx query-engine specification against a shallow
embedding of the repository sources.

Python strings are embedded as `List Char` so that the splitting, prefix and
substring operations used by the sources reduce inside the kernel.  Python
exceptions are embedded as an `Except` error type; functions that can raise
return `Except OptError _`.  External collaborators (pyarrow kernels, the
blob-store listing callback, the binder and physical planner) enter as
function parameters, exactly as they are opaque callees in the source.
-/

/-- Python `str` embedded as a list of characters. -/
abbrev Str := List Char

/-- Lexicographic order on strings by code point, Python `<` on `str`. -/
def strLe : Str → Str → Bool
  | [], _ => true
  | _ :: _, [] => false
  | x :: xs, y :: ys => if x = y then strLe xs ys else decide (x < y)

/-- Stable insertion used by `sortStr`. -/
def insertLe (le : Str → Str → Bool) (x : Str) : List Str → List Str
  | [] => [x]
  | y :: ys => if le x y then x :: y :: ys else y :: insertLe le x ys

/-- Insertion sort; embeds Python `sorted` on lists of strings (on the
pairwise-distinct lists produced from Python sets both return the unique
ordered arrangement). -/
def sortStr : List Str → List Str
  | [] => []
  | x :: xs => insertLe strLe x (sortStr xs)

/-- First-occurrence deduplication with an accumulator of already seen
elements; `dedupFirst` below embeds the conversion of a list into a Python
set (membership-wise) and `dict.fromkeys` (order-wise). -/
def dedupFirstAux {α : Type} [DecidableEq α] (seen : List α) : List α → List α
  | [] => []
  | x :: xs => if x ∈ seen then dedupFirstAux seen xs else x :: dedupFirstAux (x :: seen) xs

/-- Keep the first occurrence of every element, dropping later duplicates. -/
def dedupFirst {α : Type} [DecidableEq α] (l : List α) : List α := dedupFirstAux [] l

/-- Python `needle in hay` on strings: substring containment. -/
def isSubstrOf (needle : Str) : Str → Bool
  | [] => needle.isEmpty
  | c :: rest => needle.isPrefixOf (c :: rest) || isSubstrOf needle rest

/-- Python `s.split(sep)` for a one-character separator. -/
def splitOnChar (sep : Char) : Str → List Str
  | [] => [[]]
  | c :: rest =>
    let r := splitOnChar sep rest
    if c = sep then [] :: r
    else
      match r with
      | [] => [[c]]
      | h :: t => (c :: h) :: t

/-- Python `s.lower()` (ASCII letters, which is all the sources compare). -/
def strLower (s : Str) : Str := s.map Char.toLower

/-- Decimal digit character. -/
def digitChar (n : Nat) : Char := Char.ofNat (48 + n)

/-- Python `f"{n:02d}"` for `n ≤ 99`, the range a `datetime` guarantees for
month, day and hour fields. -/
def pad2 (n : Nat) : Str := [digitChar (n / 10 % 10), digitChar (n % 10)]

/-- Python `f"{n:04d}"` for `n ≤ 9999`, the range a `datetime` guarantees
for the year field. -/
def pad4 (n : Nat) : Str :=
  [digitChar (n / 1000 % 10), digitChar (n / 100 % 10), digitChar (n / 10 % 10),
    digitChar (n % 10)]

/-- The exceptions raised by the embedded fragments of the source
(`opteryx.exceptions` plus the Python built-ins the sources can hit).
Messages containing interpolated values are carried structurally. -/
inductive OptError where
  | MissingSqlStatement
  | CursorInvalidState
  | PermissionsError (msg : Str)
  | SqlError (msg : Str)
  | UnsupportedSegmentation (dataset : Str)
  | StopIteration
  | IndexError
  | KeyError
deriving DecidableEq, Repr

/-- Python scalar values as they travel through the engine: the dynamic
`value` slot of expression nodes and the cells of columnar batches. -/
inductive PyValue where
  | int (n : Int)
  | str (s : Str)
  | bool (b : Bool)
  | null
deriving DecidableEq, Repr

instance {ε α : Type} [DecidableEq ε] [DecidableEq α] : DecidableEq (Except ε α) := fun a b =>
  match a, b with
  | .ok x, .ok y =>
    if h : x = y then .isTrue (by rw [h]) else .isFalse (by simp [Except.ok.injEq, h])
  | .error x, .error y =>
    if h : x = y then .isTrue (by rw [h]) else .isFalse (by simp [Except.error.injEq, h])
  | .ok _, .error _ => .isFalse (by simp)
  | .error _, .ok _ => .isFalse (by simp)

/- ===================== C1 : Cursor single-shot execution ============== -/

/-- The cursor state tracked by `opteryx/connection.py`: `Cursor._query`
(line 122) and the connection context history the cursor appends to
(line 148).  Timestamps and statistics are irrelevant to control flow and
omitted. -/
structure CursorState where
  query : Option Str
  history : List Str
deriving DecidableEq, Repr

/-- `Cursor.__init__` (connection.py lines 119-128): `_query` starts as
`None`; no other statement in the module ever assigns `_query`. -/
def cursor_init : CursorState := { query := none, history := [] }

/-- `Cursor._inner_execute` (connection.py lines 139-164): raise
`MissingSqlStatement` on a falsy operation, raise `CursorInvalidStateError`
when `_query` is not `None`, otherwise append to the history and run the
planner (`runPlans`, the downstream pipeline, is an opaque callee here).
Note the source never assigns `self._query`, so the returned state carries
`query` unchanged. -/
def inner_execute {α : Type} (runPlans : Str → α) (s : CursorState) (operation : Str) :
    Except OptError (CursorState × α) :=
  if operation.isEmpty then .error .MissingSqlStatement
  else if s.query.isSome then .error .CursorInvalidState
  else .ok ({ s with history := s.history ++ [operation] }, runPlans operation)

/- ===================== C2 : JOIN USING join types ===================== -/

/-- The configuration `JoinNode.__init__` reads (join_node.py lines 54-58). -/
structure JoinConfig where
  type : Str
  onExpr : Option Str
  using_ : Option (List Str)
deriving DecidableEq, Repr

/-- The state a successfully constructed `JoinNode` holds. -/
structure JoinState where
  join_type : Str
  onExpr : Option Str
  using_ : Option (List Str)
deriving DecidableEq, Repr

/-- `JoinNode.__init__` (join_node.py lines 54-64): error when both `on` and
`using` are missing; error when `using` is present and the lower-cased join
type is not exactly `left outer`. -/
def join_node_init (config : JoinConfig) : Except OptError JoinState :=
  if config.onExpr = none ∧ config.using_ = none then
    .error (.SqlError "Missing JOIN ON condition.".toList)
  else if config.using_.isSome ∧ strLower config.type ≠ "left outer".toList then
    .error (.SqlError "JOIN USING only valid for INNER and LEFT joins.".toList)
  else
    .ok { join_type := config.type, onExpr := config.onExpr, using_ := config.using_ }

/- ============ Expression nodes and columnar batches (shared) ========== -/

/-- The closed tag set of expression nodes
(`opteryx.managers.expression.NodeType`, as listed in the spec data model). -/
inductive NodeType where
  | LITERAL
  | IDENTIFIER
  | WILDCARD
  | FUNCTION
  | AGGREGATOR
  | BINARY_OPERATOR
  | COMPARISON_OPERATOR
  | UNARY_OPERATOR
  | NESTED
  | AND
  | OR
  | NOT
deriving DecidableEq, Repr

/-- The orso value types the embedded fragments inspect
(`orso.types.OrsoTypes`). -/
inductive OrsoType where
  | INTEGER
  | DOUBLE
  | VARCHAR
  | BOOLEAN
  | TIMESTAMP
  | OTHER
deriving DecidableEq, Repr

/-- An expression-tree node as the operator sources read it: the duck-typed
Python `Node` restricted to the attributes the embedded code touches
(`node_type`, the dynamic `value`, the bound orso `type`, `parameters`,
`schema_column.identity` and `query_column`). -/
inductive PNode where
  | mk (node_type : NodeType) (value : PyValue) (otype : OrsoType)
      (parameters : List PNode) (identity : Str) (query_column : Str)

def PNode.node_type : PNode → NodeType
  | .mk t _ _ _ _ _ => t

def PNode.value : PNode → PyValue
  | .mk _ v _ _ _ _ => v

def PNode.otype : PNode → OrsoType
  | .mk _ _ o _ _ _ => o

def PNode.parameters : PNode → List PNode
  | .mk _ _ _ p _ _ => p

/-- `node.schema_column.identity` in the sources. -/
def PNode.identity : PNode → Str
  | .mk _ _ _ _ i _ => i

def PNode.query_column : PNode → Str
  | .mk _ _ _ _ _ q => q

/-- A columnar batch (pyarrow table): ordered named columns of cells. -/
structure Table where
  columns : List (Str × List PyValue)
deriving DecidableEq, Repr

/-- `table.num_rows`: the length of the columns (pyarrow keeps all columns
the same length; we read the first). -/
def Table.num_rows (t : Table) : Nat :=
  match t.columns with
  | [] => 0
  | (_, col) :: _ => col.length

/-- Column lookup by name, first occurrence, `None` when absent — the name
resolution inside pyarrow `Table.select`. -/
def lookupCol (t : Table) (n : Str) : Option (List PyValue) :=
  (t.columns.find? (fun c => c.1 = n)).map (fun c => c.2)

/-- pyarrow `Table.select(names)`: the named columns in the requested order;
`none` (a `KeyError`) when a name is absent. -/
def tselect (t : Table) (names : List Str) : Option Table :=
  (names.mapM (fun n => (lookupCol t n).map (fun col => (n, col)))).map Table.mk

/-- pyarrow `Table.rename_columns(names)`: positional renaming. -/
def rename_columns (t : Table) (names : List Str) : Table :=
  ⟨(t.columns.zip names).map (fun p => (p.2, p.1.2))⟩

/- ============== C3 : Mabel partition scheme blob selection ============ -/

/-- `_extract_part_from_path` (mabel_partitions.py lines 21-25): first
`/`-separated part starting with the given marker, `None` when absent. -/
def extract_part_from_path (path : Str) (marker : Str) : Option Str :=
  (splitOnChar '/' path).find? (fun part => marker.isPrefixOf part)

/-- `_extract_as_at` (mabel_partitions.py line 28). -/
def extract_as_at (path : Str) : Option Str :=
  extract_part_from_path path "as_at_".toList

/-- `_extract_by` (mabel_partitions.py line 32). -/
def extract_by (path : Str) : Option Str :=
  extract_part_from_path path "by_".toList

/-- `_is_complete` (mabel_partitions.py line 45): some blob contains
`<as_at>/frame.complete` as a substring. -/
def is_complete (blobs : List Str) (as_at : Str) : Bool :=
  blobs.any (fun blob => isSubstrOf (as_at ++ "/frame.complete".toList) blob)

/-- `_is_invalid` (mabel_partitions.py line 46): some blob contains
`<as_at>/frame.ignore` as a substring. -/
def is_invalid (blobs : List Str) (as_at : Str) : Bool :=
  blobs.any (fun blob => isSubstrOf (as_at ++ "/frame.ignore".toList) blob)

/-- The `while as_ats:` loop of `get_blobs_in_partition` (mabel_partitions.py
lines 92-98).  The argument list is the sorted `as_ats` reversed, because
Python `list.pop()` takes the last (latest) element first.  A frame that is
complete and not ignored is selected with the blob list unchanged; otherwise
every blob containing the failed token is dropped and the loop continues
with `as_at` reset to `None`. -/
def select_frame (blob_names : List Str) : List Str → Option Str × List Str
  | [] => (none, blob_names)
  | as_at :: rest =>
    if is_complete blob_names as_at && !is_invalid blob_names as_at then
      (some as_at, blob_names)
    else
      select_frame (blob_names.filter (fun blob => !isSubstrOf as_at blob)) rest

/-- A wall-clock hour, the unit `get_blobs_in_partition` iterates over. -/
structure Timestamp where
  year : Nat
  month : Nat
  day : Nat
  hour : Nat
deriving DecidableEq, Repr

/-- Modelled from the spec: `BasePartitionScheme.hourly_timestamps` is not
under src/ (only `opteryx/managers/schemes/mabel_partitions.py` is); the
spec says the scheme works "For each hour in `[start,end]`".  We model the
hourly sequence for ranges lying within a single calendar day — every
timestamp with that date and an hour from `start.hour` to `end.hour` — which
is all the claims exercise; ranges crossing days would need calendar
arithmetic the spec does not describe, and are given the empty sequence. -/
def hourly_timestamps (start_date end_date : Timestamp) : List Timestamp :=
  if start_date.year = end_date.year ∧ start_date.month = end_date.month ∧
      start_date.day = end_date.day then
    (List.range (end_date.hour + 1 - start_date.hour)).map
      (fun i => { start_date with hour := start_date.hour + i })
  else []

/-- The `date_path` f-string of `_inner` (mabel_partitions.py line 70). -/
def date_path (pfx : Str) (ts : Timestamp) : Str :=
  pfx ++ "/year_".toList ++ pad4 ts.year ++ "/month_".toList ++ pad2 ts.month ++
    "/day_".toList ++ pad2 ts.day

/-- The `/by_hour/hour=HH/` marker of `_inner` (mabel_partitions.py line 81). -/
def hour_marker (ts : Timestamp) : Str :=
  "/by_hour/hour=".toList ++ pad2 ts.hour ++ "/".toList

/-- `_inner` of `MabelPartitionScheme.get_blobs_in_partition`
(mabel_partitions.py lines 64-103) for one hour: list the day's blobs,
reject any `by_*` segmentation other than `by_hour`, keep only the matching
hour when `by_hour` folders exist, select the latest complete non-ignored
`as_at` frame, then yield — the generator emits the blobs containing the
selected token (line 101, when one was selected) FOLLOWED BY every surviving
blob name (line 103, unconditionally: the source has no `else` before it). -/
def inner_hour (blob_list_getter : Str → List Str) (pfx : Str) (ts : Timestamp) :
    Except OptError (List Str) :=
  let blob_names := blob_list_getter (date_path pfx ts)
  if blob_names.any (fun blob =>
      match extract_by blob with
      | none => false
      | some seg => seg ≠ "by_hour".toList) then
    .error (.UnsupportedSegmentation pfx)
  else
    let blob_names :=
      if blob_names.any (fun blob => isSubstrOf (hour_marker ts) blob) then
        blob_names.filter (fun blob => isSubstrOf (hour_marker ts) blob)
      else blob_names
    let as_ats :=
      sortStr (dedupFirst
        ((blob_names.filter (fun blob => isSubstrOf "as_at_".toList blob)).filterMap
          extract_as_at))
    let sel := select_frame blob_names as_ats.reverse
    .ok ((match sel.1 with
          | some as_at => sel.2.filter (fun blob => isSubstrOf as_at blob)
          | none => []) ++ sel.2)

/-- The outer loop of `get_blobs_in_partition` (mabel_partitions.py lines
112-117): per hour, sort the set of new blob names and yield them,
remembering every name already yielded. -/
def get_blobs_aux (blob_list_getter : Str → List Str) (pfx : Str) :
    List Timestamp → List Str → Except OptError (List Str)
  | [], _seen => .ok []
  | ts :: rest, seen =>
    match inner_hour blob_list_getter pfx ts with
    | .error e => .error e
    | .ok blobs =>
      let fresh := sortStr (dedupFirst (blobs.filter (fun blob => !seen.contains blob)))
      match get_blobs_aux blob_list_getter pfx rest (seen ++ fresh) with
      | .error e => .error e
      | .ok tail => .ok (fresh ++ tail)

/-- `MabelPartitionScheme.get_blobs_in_partition` (mabel_partitions.py lines
54-117) with both dates supplied (the `None` defaults fill in today, outside
this model). -/
def get_blobs_in_partition (blob_list_getter : Str → List Str) (pfx : Str)
    (start_date end_date : Timestamp) : Except OptError (List Str) :=
  get_blobs_aux blob_list_getter pfx (hourly_timestamps start_date end_date) []

/- ================= C4 : Aggregate COUNT(*) short-circuit ============== -/

/-- `_is_count_star` (aggregate_node.py lines 68-78): exactly one aggregate,
named `COUNT`, whose first parameter is a wildcard. -/
def is_count_star (aggregates : List PNode) : Bool :=
  match aggregates with
  | [a] =>
    a.value = PyValue.str "COUNT".toList &&
      (match a.parameters.head? with
       | some p => p.node_type = NodeType.WILDCARD
       | none => false)
  | _ => false

/-- `_count_star` (aggregate_node.py lines 81-84): sum `num_rows` over the
producer's batches and emit a single one-row one-column table. -/
def count_star (morsels : List Table) (column_name : Str) : List Table :=
  [⟨[(column_name, [PyValue.int (Int.ofNat (morsels.map Table.num_rows).sum)])]⟩]

/-- The `COUNT(*)` dispatch of `AggregateNode.execute` (aggregate_node.py
lines 225-237): on `_is_count_star` short-circuit into `_count_star` keyed by
the aggregate's result identity.  The general (non-`COUNT(*)`) tail of
`execute` runs pyarrow compute kernels, external code represented by the
`fallback` stream. -/
def aggregate_execute (aggregates : List PNode) (morsels : List Table)
    (fallback : List Table) : List Table :=
  if is_count_star aggregates then
    match aggregates with
    | a :: _ => count_star morsels a.identity
    | [] => fallback
  else fallback

/- ================= C5 : permission check before planning ============== -/

/-- The per-statement body of `query_planner` (components/__init__.py lines
83-109): take the statement's top-level key (`next(iter(ast))`), raise
`PermissionsError` when the connection's permissions do not contain it,
otherwise hand the statement to the binder and physical planner
(`bind_and_plan`, downstream stages outside this module's control flow) and
yield the physical plan.  The AST is represented by its key list. -/
def plan_statement {Plan : Type} (bind_and_plan : List Str → Plan)
    (permissions : List Str) (ast : List Str) : Except OptError Plan :=
  match ast with
  | [] => .error .StopIteration
  | query_type :: _ =>
    if query_type ∈ permissions then .ok (bind_and_plan ast)
    else
      .error (.PermissionsError
        ("User does not have permission to execute ".toList ++ query_type ++
          " queries.".toList))

/- ============== C6 : positional GROUP BY key resolution =============== -/

/-- Python list indexing `l[i]`: negative indices count from the end;
out-of-range indexing is an `IndexError` (`none`). -/
def pyGet {α : Type} (l : List α) (i : Int) : Option α :=
  if i < 0 then
    if (-i).toNat ≤ l.length then l.get? (l.length - (-i).toNat) else none
  else l.get? i.toNat

/-- The group-key rewrite of `AggregateAndGroupNode.__init__`
(aggregate_and_group_node.py lines 51-56): a `LITERAL` node of orso type
`INTEGER` with value `k` becomes `projection[k - 1]`; every other node is
kept.  A non-integer payload under the integer tag would be a Python
`TypeError`; an out-of-range index is an `IndexError`. -/
def resolve_groups (groups projection : List PNode) : Except OptError (List PNode) :=
  match groups with
  | [] => .ok []
  | g :: rest =>
    let resolved : Except OptError PNode :=
      if g.node_type = NodeType.LITERAL ∧ g.otype = OrsoType.INTEGER then
        match g.value with
        | .int k =>
          match pyGet projection (k - 1) with
          | some p => .ok p
          | none => .error .IndexError
        | _ => .error .IndexError
      else .ok g
    match resolved, resolve_groups rest projection with
    | .ok p, .ok tail => .ok (p :: tail)
    | .error e, _ => .error e
    | _, .error e => .error e

/-- The claim's reading of "the k-th (1-based) column of the projection
list": defined only when `1 ≤ k ≤ length`. -/
def oneBasedColumn (projection : List PNode) (k : Int) : Option PNode :=
  if 1 ≤ k then projection.get? (k.toNat - 1) else none

/-- The amended resolution: positional keys `k` with `1 ≤ k ≤ length` are
replaced by the k-th (1-based) projection column, all other nodes kept. -/
def spec_resolve_groups (groups projection : List PNode) : List PNode :=
  groups.map (fun g =>
    if g.node_type = NodeType.LITERAL ∧ g.otype = OrsoType.INTEGER then
      match g.value with
      | .int k => (oneBasedColumn projection k).getD g
      | _ => g
    else g)

/- ================= C7 : Exit node uniqueness and rename =============== -/

/-- Occurrence count, `collections.Counter` for one key. -/
def countOcc (l : List Str) (x : Str) : Nat := (l.filter (fun y => y = x)).length

/-- Python `", ".join`. -/
def joinComma : List Str → Str
  | [] => []
  | [x] => x
  | x :: rest => x ++ ", ".toList ++ joinComma rest

/-- The duplicate diagnosis of `ExitNode.execute` (exit_node.py lines
59-64): the identities occurring more than once (`Counter`, first-occurrence
order) and the user-facing names paired with them. -/
def exit_dup_message (final_names final_columns : List Str) : Str :=
  let duplicates := dedupFirst (final_columns.filter (fun c => countOcc final_columns c > 1))
  let matched :=
    ((final_names.zip final_columns).filter (fun p => duplicates.contains p.2)).map
      (fun p => p.1)
  "Query result contains multiple instances of the same column - ".toList ++
    joinComma matched

/-- `ExitNode.execute` (exit_node.py lines 46-71): gather the projection's
identities and user-facing names; raise when an identity repeats; otherwise
select every batch down to the identities, in order, and rename them
positionally. -/
def exit_execute (columns : List PNode) (batches : List Table) :
    Except OptError (List Table) :=
  let final_columns := columns.map PNode.identity
  let final_names := columns.map PNode.query_column
  if final_columns.length ≠ (dedupFirst final_columns).length then
    .error (.SqlError (exit_dup_message final_names final_columns))
  else
    let step : Table → Except OptError Table := fun morsel =>
      match tselect morsel final_columns with
      | some sel => .ok (rename_columns sel final_names)
      | none => .error .KeyError
    batches.mapM step

/- ===================== C8 : TRY_ casts yield NULL ===================== -/

/-- A coercion failure: the exception kinds `safe` catches (functions/
__init__.py line 84: `ValueError`, `IndexError`, `TypeError`,
`ArrowNotImplementedError`).  The Python callables installed by `try_cast`
(`bool`, `float`, `str`, `numpy.datetime64`, `json.loads`) signal every
coercion failure through one of these kinds. -/
inductive CastFail where
  | ValueError
  | IndexError
  | TypeError
  | ArrowNotImplementedError
deriving DecidableEq, Repr

/-- `safe` (functions/__init__.py lines 80-85): run the callable, `None` on
a caught coercion failure. -/
def safe {α β : Type} (func : α → Except CastFail β) (x : α) : Option β :=
  match func x with
  | .ok v => some v
  | .error _ => none

/-- The keys of the `casters` dict in `try_cast` (functions/__init__.py
lines 90-96). -/
def try_cast_keys : List Str :=
  ["BOOLEAN".toList, "NUMERIC".toList, "VARCHAR".toList, "TIMESTAMP".toList,
    "STRUCT".toList]

/-- `try_cast` (functions/__init__.py lines 88-104): for a supported type
name return the element-wise caster ``[safe(caster, i) for i in arr]``; for
any other name raise `SqlError`.  The Python builtins behind the dict are
external callables, passed in as `builtins`. -/
def try_cast (builtins : Str → PyValue → Except CastFail PyValue) (tname : Str) :
    Except OptError (List PyValue → List (Option PyValue)) :=
  if tname ∈ try_cast_keys then
    .ok (fun arr => arr.map (safe (builtins tname)))
  else
    .error (.SqlError ("Unable to cast values in column to type".toList ++ tname))

/- ================= C9 : Projection of the identity list =============== -/

/-- The binder-facing pieces of `ProjectionNode.__init__`
(projection_node.py lines 38-46): the ordered identity list and the
non-identifier columns that still need evaluating. -/
def projection_init (projection : List PNode) : List Str × List PNode :=
  (projection.map PNode.identity,
    projection.filter (fun column => column.node_type ≠ NodeType.IDENTIFIER))

/-- Modelled from the spec: `evaluate_and_append` lives in
`opteryx.managers.expression`, which is not under src/.  The spec's
evaluation-ordering contract says operators "evaluate inner … sub-expressions
and append as synthetic columns identified by stable identities"; so each
listed node appends one column keyed by its identity, computed by the
expression evaluator `evalFn` (an external kernel), and an empty node list
leaves the batch unchanged. -/
def evaluate_and_append (evalFn : PNode → Table → List PyValue)
    (nodes : List PNode) (t : Table) : Table :=
  nodes.foldl (fun acc n => ⟨acc.columns ++ [(n.identity, evalFn n acc)]⟩) t

/-- `ProjectionNode.execute` (projection_node.py lines 56-70): evaluate the
non-identifier columns onto each batch, then select the projection's
identities. -/
def projection_execute (evalFn : PNode → Table → List PyValue)
    (projection : List PNode) (batches : List Table) : Except OptError (List Table) :=
  let parts := projection_init projection
  let step : Table → Except OptError Table := fun morsel =>
    match tselect (evaluate_and_append evalFn parts.2 morsel) parts.1 with
    | some sel => .ok sel
    | none => .error .KeyError
  batches.mapM step

/- ================= C10 : Connection permission validation ============= -/

/-- `Connection.__init__` (connection.py lines 73-100): default the
permission set to the full vocabulary `PERMISSIONS`, reject an empty
intersection with the vocabulary, reject any member outside it, and store
the set otherwise.  The vocabulary itself lives in
`opteryx.constants.permissions` (not under src/), so it is a parameter; the
claims hold for every vocabulary. -/
def connection_init (PERMISSIONS : List Str) (permissions : Option (List Str)) :
    Except OptError (List Str) :=
  let origin := permissions.getD PERMISSIONS
  let perms := dedupFirst origin
  if perms.all (fun p => decide (p ∉ PERMISSIONS)) then
    .error (.PermissionsError "No valid permissions presented.".toList)
  else if !perms.all (fun p => decide (p ∈ PERMISSIONS)) then
    .error (.PermissionsError "Invalid permissions presented.".toList)
  else
    .ok perms

/- ================= Concrete inputs used by witnesses ================== -/

/-- A bound identifier column `a`. -/
def nodeA : PNode :=
  .mk .IDENTIFIER (.str "a".toList) .VARCHAR [] "col_a".toList "a".toList

/-- A bound identifier column `b`. -/
def nodeB : PNode :=
  .mk .IDENTIFIER (.str "b".toList) .VARCHAR [] "col_b".toList "b".toList

/-- The literal `0` as a GROUP BY key. -/
def groupZero : PNode := .mk .LITERAL (.int 0) .INTEGER [] "lit_0".toList "0".toList

/-- The literal `2` as a GROUP BY key. -/
def groupTwo : PNode := .mk .LITERAL (.int 2) .INTEGER [] "lit_2".toList "2".toList

/-- A bound `COUNT(*)` aggregate node. -/
def countStarNode : PNode :=
  .mk .AGGREGATOR (.str "COUNT".toList) .INTEGER
    [.mk .WILDCARD .null .OTHER [] "star".toList "*".toList]
    "agg_0".toList "COUNT(*)".toList

/-- A caster standing in for the Python builtins behind `try_cast`:
fails (with a `TypeError`) exactly on `null` inputs. -/
def builtinsNullFail : Str → PyValue → Except CastFail PyValue :=
  fun _ v => match v with
  | .null => .error .TypeError
  | w => .ok w

/- ========================= Helper lemmas ============================== -/

theorem mapM_except_ok {α β ε : Type} (f : α → Except ε β) (g : α → β) :
    ∀ (l : List α), (∀ x ∈ l, f x = .ok (g x)) → l.mapM f = .ok (l.map g) := by
  intro l
  induction l with
  | nil => intro _; rfl
  | cons x xs ih =>
    intro h
    rw [List.mapM_cons, h x (by simp), ih (fun y hy => h y (by simp [hy]))]
    rfl

theorem mapM_option_some {α β : Type} (f : α → Option β) (g : α → β) :
    ∀ (l : List α), (∀ x ∈ l, f x = some (g x)) → l.mapM f = some (l.map g) := by
  intro l
  induction l with
  | nil => intro _; rfl
  | cons x xs ih =>
    intro h
    rw [List.mapM_cons, h x (by simp), ih (fun y hy => h y (by simp [hy]))]
    rfl

theorem dedupFirstAux_mem {α : Type} [DecidableEq α] (l : List α) :
    ∀ (seen : List α) (x : α), x ∈ dedupFirstAux seen l ↔ x ∈ l ∧ x ∉ seen := by
  induction l with
  | nil => intro seen x; simp [dedupFirstAux]
  | cons y ys ih =>
    intro seen x
    unfold dedupFirstAux
    by_cases hxy : x = y
    · subst hxy
      by_cases hy : x ∈ seen
      · simp [hy, ih]
      · simp [hy, ih]
    · by_cases hy : y ∈ seen
      · simp only [hy, if_true, ih, List.mem_cons]
        tauto
      · simp only [hy, if_false, List.mem_cons, ih, hxy]
        tauto

theorem dedupFirst_mem {α : Type} [DecidableEq α] (l : List α) (x : α) :
    x ∈ dedupFirst l ↔ x ∈ l := by
  unfold dedupFirst
  rw [dedupFirstAux_mem]
  simp

theorem dedupFirstAux_length_le {α : Type} [DecidableEq α] (l : List α) :
    ∀ (seen : List α), (dedupFirstAux seen l).length ≤ l.length := by
  induction l with
  | nil => intro seen; simp [dedupFirstAux]
  | cons z zs ihz =>
    intro seen
    unfold dedupFirstAux
    by_cases hz : z ∈ seen
    · simp only [hz, if_true, List.length_cons]
      exact Nat.le_succ_of_le (ihz seen)
    · simp only [hz, if_false, List.length_cons]
      exact Nat.succ_le_succ (ihz (z :: seen))

theorem dedupFirstAux_length_nodup {α : Type} [DecidableEq α] (l : List α) :
    ∀ (seen : List α), (dedupFirstAux seen l).length = l.length ↔
      l.Nodup ∧ ∀ x ∈ l, x ∉ seen := by
  induction l with
  | nil => intro seen; simp [dedupFirstAux]
  | cons y ys ih =>
    intro seen
    unfold dedupFirstAux
    by_cases hy : y ∈ seen
    · simp only [hy, if_true, List.length_cons]
      constructor
      · intro h
        exact absurd h (Nat.ne_of_lt (Nat.lt_succ_of_le (dedupFirstAux_length_le ys seen)))
      · rintro ⟨_, hall⟩
        exact absurd hy (hall y (by simp))
    · simp only [hy, if_false, List.length_cons, Nat.succ.injEq, ih, List.nodup_cons]
      constructor
      · rintro ⟨hnd, hall⟩
        have hyn : y ∉ ys := fun hmem => (hall y hmem) (by simp)
        refine ⟨⟨hyn, hnd⟩, fun x hx => ?_⟩
        rcases List.mem_cons.mp hx with rfl | hx2
        · exact hy
        · exact fun hs => (hall x hx2) (List.mem_cons.mpr (Or.inr hs))
      · rintro ⟨⟨hyn, hnd⟩, hall⟩
        refine ⟨hnd, fun x hx hmem => ?_⟩
        rcases List.mem_cons.mp hmem with rfl | hs
        · exact hyn hx
        · exact (hall x (by simp [hx])) hs

theorem dedupFirst_length_iff_nodup {α : Type} [DecidableEq α] (l : List α) :
    (dedupFirst l).length = l.length ↔ l.Nodup := by
  unfold dedupFirst
  rw [dedupFirstAux_length_nodup]
  simp

/- ===================== Claim theorems ================================= -/

/-- C1: the claim says a second `execute` on a cursor raises
`CursorInvalidState`.  The code disagrees: `_query` is initialised to `None`
and never assigned again, so the guard in `_inner_execute` can never fire.
Evaluated on a fresh cursor executing `SELECT 1` twice, the first call
succeeds with `_query` still `None`, and the second call succeeds as well
instead of raising `CursorInvalidStateError`. -/
theorem C1_second_execute_not_rejected :
    inner_execute (fun _ => (0 : Nat)) cursor_init "SELECT 1".toList =
      .ok ({ query := none, history := ["SELECT 1".toList] }, 0) ∧
    inner_execute (fun _ => (0 : Nat))
        { query := none, history := ["SELECT 1".toList] } "SELECT 1".toList =
      .ok ({ query := none, history := ["SELECT 1".toList, "SELECT 1".toList] }, 0) := by
  constructor
  · rfl
  · rfl

/-- C2: the claim (and the error message in the source itself) says `USING`
is accepted for INNER and LEFT OUTER joins.  The constructor's condition
only accepts a join type whose lower-casing is exactly `left outer`, so an
INNER join with `USING` is rejected with `SqlError` while a LEFT OUTER one
is accepted. -/
theorem C2_inner_using_rejected :
    join_node_init ⟨"inner".toList, none, some ["name".toList]⟩ =
      .error (.SqlError "JOIN USING only valid for INNER and LEFT joins.".toList) ∧
    join_node_init ⟨"INNER".toList, none, some ["name".toList]⟩ =
      .error (.SqlError "JOIN USING only valid for INNER and LEFT joins.".toList) ∧
    join_node_init ⟨"left outer".toList, none, some ["name".toList]⟩ =
      .ok ⟨"left outer".toList, none, some ["name".toList]⟩ ∧
    join_node_init ⟨"LEFT OUTER".toList, none, some ["name".toList]⟩ =
      .ok ⟨"LEFT OUTER".toList, none, some ["name".toList]⟩ := by
  refine ⟨by decide, by decide, by decide, by decide⟩

/-- C3: the claim says the blobs yielded for an hour are exactly those
containing the selected `as_at` token.  In the source the final
`yield from blob_names` is unconditional (there is no `else` between lines
100-103 of mabel_partitions.py), so every surviving blob is yielded even
when a frame was selected.  Concretely: one hour with a complete latest
frame `as_at_2` and an older frame `as_at_1`; the selected token is
`as_at_2`, yet the `as_at_1` blob is also yielded. -/
theorem C3_yields_blobs_outside_selected_frame :
    get_blobs_in_partition
      (fun p =>
        if p = "b/year_2023/month_02/day_03".toList then
          ["b/year_2023/month_02/day_03/as_at_2/frame.complete".toList,
           "b/year_2023/month_02/day_03/as_at_2/d1.parquet".toList,
           "b/year_2023/month_02/day_03/as_at_1/d1.parquet".toList]
        else [])
      "b".toList ⟨2023, 2, 3, 0⟩ ⟨2023, 2, 3, 0⟩ =
    .ok ["b/year_2023/month_02/day_03/as_at_1/d1.parquet".toList,
         "b/year_2023/month_02/day_03/as_at_2/d1.parquet".toList,
         "b/year_2023/month_02/day_03/as_at_2/frame.complete".toList] ∧
    select_frame
      ["b/year_2023/month_02/day_03/as_at_2/frame.complete".toList,
       "b/year_2023/month_02/day_03/as_at_2/d1.parquet".toList,
       "b/year_2023/month_02/day_03/as_at_1/d1.parquet".toList]
      ["as_at_2".toList, "as_at_1".toList] =
      (some "as_at_2".toList,
        ["b/year_2023/month_02/day_03/as_at_2/frame.complete".toList,
         "b/year_2023/month_02/day_03/as_at_2/d1.parquet".toList,
         "b/year_2023/month_02/day_03/as_at_1/d1.parquet".toList]) ∧
    isSubstrOf "as_at_2".toList
        "b/year_2023/month_02/day_03/as_at_1/d1.parquet".toList = false := by
  refine ⟨by decide, by decide, by decide⟩

/-- C4: with a single `COUNT(*)` aggregate and no grouping, `execute`
short-circuits into `_count_star`: exactly one batch, one row, whose single
cell is the sum of `num_rows` over the producer batches — and `0` over an
empty producer stream. -/
theorem C4_count_star_short_circuit (a : PNode) (morsels fallback : List Table)
    (hc : is_count_star [a] = true) :
    aggregate_execute [a] morsels fallback =
      [⟨[(a.identity, [PyValue.int (Int.ofNat ((morsels.map Table.num_rows).sum))])]⟩] ∧
    (aggregate_execute [a] morsels fallback).length = 1 ∧
    (∀ t ∈ aggregate_execute [a] morsels fallback, t.num_rows = 1) ∧
    aggregate_execute [a] [] fallback =
      [⟨[(a.identity, [PyValue.int 0])]⟩] := by
  have hrun : ∀ (ms : List Table), aggregate_execute [a] ms fallback =
      [⟨[(a.identity, [PyValue.int (Int.ofNat ((ms.map Table.num_rows).sum))])]⟩] := by
    intro ms
    unfold aggregate_execute
    rw [hc]
    rfl
  refine ⟨hrun morsels, by rw [hrun morsels]; rfl, ?_, by rw [hrun []]; rfl⟩
  intro t ht
  rw [hrun morsels] at ht
  rcases List.mem_singleton.mp ht with rfl
  rfl

/-- C4 witness: a concrete `COUNT(*)` aggregate over two batches of 2 and 3
rows respectively. -/
theorem C4_count_star_witness :
    aggregate_execute [countStarNode]
        [⟨[("x".toList, [PyValue.int 1, PyValue.int 2])]⟩,
         ⟨[("x".toList, [PyValue.int 3, PyValue.int 4, PyValue.int 5])]⟩] [] =
      [⟨[("agg_0".toList,
          [PyValue.int (Int.ofNat
            (([⟨[("x".toList, [PyValue.int 1, PyValue.int 2])]⟩,
               ⟨[("x".toList, [PyValue.int 3, PyValue.int 4, PyValue.int 5])]⟩] :
                List Table).map Table.num_rows).sum)])]⟩] :=
  (C4_count_star_short_circuit countStarNode
    [⟨[("x".toList, [PyValue.int 1, PyValue.int 2])]⟩,
     ⟨[("x".toList, [PyValue.int 3, PyValue.int 4, PyValue.int 5])]⟩] []
    (by decide)).1

/-- C5: per parsed statement, the planner reads the top-level query kind and
raises `PermissionsError` when the connection's permission set lacks it —
before any physical plan is produced — and otherwise the check passes and
the statement flows on to binding and physical planning. -/
theorem C5_permission_gate {Plan : Type} (bind_and_plan : List Str → Plan)
    (permissions : List Str) (query_type : Str) (rest : List Str) :
    (query_type ∉ permissions →
      plan_statement bind_and_plan permissions (query_type :: rest) =
        .error (.PermissionsError
          ("User does not have permission to execute ".toList ++ query_type ++
            " queries.".toList))) ∧
    (query_type ∈ permissions →
      plan_statement bind_and_plan permissions (query_type :: rest) =
        .ok (bind_and_plan (query_type :: rest))) := by
  constructor
  · intro h
    simp only [plan_statement]
    rw [if_neg h]
  · intro h
    simp only [plan_statement]
    rw [if_pos h]

/-- C5 witness: a connection holding only `Query` may run a `Query`
statement, and the gate rejects an `Analyze` statement. -/
theorem C5_permission_gate_witness :
    plan_statement (fun _ => (7 : Nat)) ["Query".toList] ["Query".toList] = .ok 7 ∧
    plan_statement (fun _ => (7 : Nat)) ["Query".toList] ["Analyze".toList] =
      .error (.PermissionsError
        ("User does not have permission to execute ".toList ++ "Analyze".toList ++
          " queries.".toList)) :=
  ⟨(C5_permission_gate (fun _ => (7 : Nat)) ["Query".toList] "Query".toList []).2
      (by decide),
   (C5_permission_gate (fun _ => (7 : Nat)) ["Query".toList] "Analyze".toList []).1
      (by decide)⟩

/-- C6 counterexample: a positional GROUP BY key `0` is still replaced —
Python's negative indexing makes `projection[0 - 1]` the LAST projection
column — although no 1-based 0-th column exists.  The claim, which says
every integer literal `k` resolves to the k-th (1-based) column, is
therefore false as stated. -/
theorem C6_zero_key_wraps_to_last_column :
    resolve_groups [groupZero] [nodeA, nodeB] = .ok [nodeB] ∧
    oneBasedColumn [nodeA, nodeB] 0 = none := by
  exact ⟨rfl, rfl⟩

/-- C6 (amended): every GROUP BY key that is an integer literal `k` with
`1 ≤ k ≤ length(projection)` is replaced by the k-th (1-based) projection
column, and all other group keys are left unchanged. -/
theorem C6_positional_group_by (groups projection : List PNode)
    (h : ∀ g ∈ groups, g.node_type = NodeType.LITERAL → g.otype = OrsoType.INTEGER →
      ∃ k : Int, g.value = .int k ∧ 1 ≤ k ∧ k.toNat ≤ projection.length) :
    resolve_groups groups projection = .ok (spec_resolve_groups groups projection) := by
  induction groups with
  | nil => rfl
  | cons g rest ih =>
    have htail : resolve_groups rest projection =
        .ok (spec_resolve_groups rest projection) :=
      ih (fun x hx => h x (List.mem_cons.mpr (Or.inr hx)))
    simp only [resolve_groups, spec_resolve_groups, List.map]
    by_cases hcond : g.node_type = NodeType.LITERAL ∧ g.otype = OrsoType.INTEGER
    · obtain ⟨k, hv, hk1, hk2⟩ := h g (List.mem_cons.mpr (Or.inl rfl)) hcond.1 hcond.2
      rw [if_pos hcond, if_pos hcond, hv]
      have hnat : (k - 1).toNat = k.toNat - 1 := by omega
      have hlt : k.toNat - 1 < projection.length := by omega
      have hget : pyGet projection (k - 1) =
          some (projection.get ⟨k.toNat - 1, hlt⟩) := by
        unfold pyGet
        rw [if_neg (by omega), hnat, List.get?_eq_get hlt]
      have hspec : oneBasedColumn projection k =
          some (projection.get ⟨k.toNat - 1, hlt⟩) := by
        unfold oneBasedColumn
        rw [if_pos hk1, List.get?_eq_get hlt]
      simp only [hget, hspec, Option.getD_some, htail]
      rfl
    · rw [if_neg hcond, if_neg hcond]
      simp only [htail]
      rfl

/-- C6 witness: `GROUP BY 2` against a two-column projection resolves to the
second projection column. -/
theorem C6_positional_group_by_witness :
    resolve_groups [groupTwo] [nodeA, nodeB] =
      .ok (spec_resolve_groups [groupTwo] [nodeA, nodeB]) :=
  C6_positional_group_by [groupTwo] [nodeA, nodeB]
    (by
      intro g hg _ _
      have hgt : g = groupTwo := List.mem_singleton.mp hg
      subst hgt
      exact ⟨2, rfl, by omega, by simp [List.length]⟩)

theorem tselect_names_aux (b : Table) :
    ∀ (cols : List PNode), (∀ c ∈ cols, (lookupCol b c.identity).isSome) →
      (cols.map PNode.identity).mapM
          (fun n => (lookupCol b n).map (fun col => (n, col))) =
        some (cols.map (fun c => (c.identity, (lookupCol b c.identity).getD []))) := by
  intro cols
  induction cols with
  | nil => intro _; rfl
  | cons c rest ih =>
    intro h
    obtain ⟨v, hv⟩ := Option.isSome_iff_exists.mp (h c (by simp))
    simp only [List.map, List.mapM_cons, hv, Option.map_some']
    rw [ih (fun x hx => h x (by simp [hx]))]
    simp [hv]

theorem tselect_of_lookups (b : Table) (cols : List PNode)
    (h : ∀ c ∈ cols, (lookupCol b c.identity).isSome) :
    tselect b (cols.map PNode.identity) =
      some ⟨cols.map (fun c => (c.identity, (lookupCol b c.identity).getD []))⟩ := by
  unfold tselect
  rw [tselect_names_aux b cols h]
  rfl

theorem rename_columns_of_maps (cols : List PNode)
    (vals : PNode → List PyValue) :
    rename_columns ⟨cols.map (fun c => (c.identity, vals c))⟩
        (cols.map PNode.query_column) =
      ⟨cols.map (fun c => (c.query_column, vals c))⟩ := by
  unfold rename_columns
  congr 1
  rw [List.zip_map']
  rw [List.map_map]
  rfl

/-- C7: the Exit operator raises a `SqlError` naming the duplicated
user-facing columns whenever the final projection repeats a column
identity; with unique identities every emitted batch is exactly the
projected identity columns, in projection order, renamed to their
`query_column` names. -/
theorem C7_exit_uniqueness_and_rename (columns : List PNode) (batches : List Table) :
    (¬ (columns.map PNode.identity).Nodup →
      exit_execute columns batches =
        .error (.SqlError (exit_dup_message (columns.map PNode.query_column)
          (columns.map PNode.identity)))) ∧
    ((columns.map PNode.identity).Nodup →
      (∀ b ∈ batches, ∀ c ∈ columns, (lookupCol b c.identity).isSome) →
      exit_execute columns batches =
        .ok (batches.map (fun b =>
          ⟨columns.map (fun c =>
            (c.query_column, (lookupCol b c.identity).getD []))⟩))) := by
  constructor
  · intro hdup
    unfold exit_execute
    rw [if_pos]
    intro hlen
    exact hdup ((dedupFirst_length_iff_nodup (columns.map PNode.identity)).mp hlen.symm)
  · intro hnd hlook
    unfold exit_execute
    rw [if_neg]
    · refine mapM_except_ok _ _ batches ?_
      intro b hb
      simp only [tselect_of_lookups b columns (hlook b hb)]
      exact congrArg Except.ok
        (rename_columns_of_maps columns (fun c => (lookupCol b c.identity).getD []))
    · intro hlen
      exact hlen ((dedupFirst_length_iff_nodup (columns.map PNode.identity)).mpr hnd).symm

/-- C7 witness: two distinct identity columns are selected and renamed in
order on a three-column batch. -/
theorem C7_exit_witness :
    exit_execute [nodeA, nodeB]
        [⟨[("col_b".toList, [PyValue.int 9]), ("col_a".toList, [PyValue.int 4]),
           ("junk".toList, [PyValue.int 0])]⟩] =
      .ok ([⟨[("col_b".toList, [PyValue.int 9]), ("col_a".toList, [PyValue.int 4]),
           ("junk".toList, [PyValue.int 0])]⟩].map (fun b =>
        ⟨[nodeA, nodeB].map (fun c =>
          (c.query_column, (lookupCol b c.identity).getD []))⟩)) :=
  (C7_exit_uniqueness_and_rename [nodeA, nodeB]
      [⟨[("col_b".toList, [PyValue.int 9]), ("col_a".toList, [PyValue.int 4]),
         ("junk".toList, [PyValue.int 0])]⟩]).2
    (by decide)
    (by
      intro b hb c hc
      rcases List.mem_singleton.mp hb with rfl
      rcases List.mem_cons.mp hc with rfl | hc2
      · decide
      · rcases List.mem_singleton.mp hc2 with rfl
        decide)

/-- C8: for every supported `TRY_*` cast target, `try_cast` returns a caster
that never raises: the output list has the input's length and is
element-wise the coerced value when the underlying coercion succeeds, and
`NULL` (`none`) when it fails with a caught coercion error. -/
theorem C8_try_cast_null_on_failure (builtins : Str → PyValue → Except CastFail PyValue)
    (tname : Str) (arr : List PyValue) (h : tname ∈ try_cast_keys) :
    ∃ f, try_cast builtins tname = .ok f ∧
      (f arr).length = arr.length ∧
      ∀ i x, arr.get? i = some x →
        (f arr).get? i =
          some (match builtins tname x with
                | .ok v => some v
                | .error _ => none) := by
  refine ⟨fun a => a.map (safe (builtins tname)), ?_, ?_, ?_⟩
  · unfold try_cast
    rw [if_pos h]
  · exact List.length_map arr _
  · intro i x hx
    rw [List.get?_map, hx]
    simp only [Option.map_some']
    cases hb : builtins tname x <;> simp [safe, hb]

/-- C8 witness: the `NUMERIC` cast with a caster failing on `null` maps a
mixed array without raising. -/
theorem C8_try_cast_witness :
    ∃ f, try_cast builtinsNullFail "NUMERIC".toList = .ok f ∧
      (f [PyValue.int 3, PyValue.null]).length =
        ([PyValue.int 3, PyValue.null] : List PyValue).length ∧
      ∀ i x, ([PyValue.int 3, PyValue.null] : List PyValue).get? i = some x →
        (f [PyValue.int 3, PyValue.null]).get? i =
          some (match builtinsNullFail "NUMERIC".toList x with
                | .ok v => some v
                | .error _ => none) :=
  C8_try_cast_null_on_failure builtinsNullFail "NUMERIC".toList
    [PyValue.int 3, PyValue.null] (by decide)

theorem find?_append_of_none {α : Type} (p : α → Bool) :
    ∀ (pre rest : List α), (∀ x ∈ pre, p x = false) →
      List.find? p (pre ++ rest) = List.find? p rest := by
  intro pre
  induction pre with
  | nil => intro rest _; rfl
  | cons y ys ih =>
    intro rest h
    rw [List.cons_append, List.find?_cons, h y (by simp)]
    exact ih rest (fun x hx => h x (by simp [hx]))

theorem tselect_self_aux :
    ∀ (cols pre : List (Str × List PyValue)),
      (List.map Prod.fst (pre ++ cols)).Nodup →
      (cols.map Prod.fst).mapM
          (fun n => (lookupCol ⟨pre ++ cols⟩ n).map (fun col => (n, col))) =
        some cols := by
  intro cols
  induction cols with
  | nil => intro pre _; rfl
  | cons c rest ih =>
    intro pre hnd
    have hnotpre : c.1 ∉ List.map Prod.fst pre := by
      intro hmem
      have : (List.map Prod.fst pre ++ c.1 :: List.map Prod.fst rest).Nodup := by
        simpa [List.map_append] using hnd
      exact (List.disjoint_of_nodup_append this) hmem (by simp)
    have hlook : lookupCol ⟨pre ++ c :: rest⟩ c.1 = some c.2 := by
      unfold lookupCol
      rw [find?_append_of_none _ pre (c :: rest) ?_]
      · rw [List.find?_cons]
        simp
      · intro x hx
        simp only [decide_eq_false_iff_not]
        intro hxc
        exact hnotpre (hxc ▸ List.mem_map_of_mem Prod.fst hx)
    have hih : (rest.map Prod.fst).mapM
        (fun n => (lookupCol ⟨(pre ++ [c]) ++ rest⟩ n).map (fun col => (n, col))) =
        some rest := by
      refine ih (pre ++ [c]) ?_
      simpa [List.append_assoc] using hnd
    rw [List.append_assoc, List.singleton_append] at hih
    simp only [List.map, List.mapM_cons, hlook, Option.map_some', hih]
    rfl

theorem tselect_self (t : Table) (h : (t.columns.map Prod.fst).Nodup) :
    tselect t (t.columns.map Prod.fst) = some t := by
  obtain ⟨cols⟩ := t
  unfold tselect
  have := tselect_self_aux cols [] (by simpa using h)
  simp only [List.nil_append] at this
  rw [this]
  rfl

/-- C9: when a Projection's columns are all identifiers whose identities are
exactly the input batch's columns, in the same order, the operator emits
every batch unchanged. -/
theorem C9_projection_of_identities (evalFn : PNode → Table → List PyValue)
    (projection : List PNode) (batches : List Table)
    (hid : ∀ c ∈ projection, c.node_type = NodeType.IDENTIFIER)
    (hcols : ∀ b ∈ batches, b.columns.map Prod.fst = projection.map PNode.identity)
    (hnd : ∀ b ∈ batches, (b.columns.map Prod.fst).Nodup) :
    projection_execute evalFn projection batches = .ok batches := by
  unfold projection_execute projection_init
  have hfil : projection.filter (fun column => column.node_type ≠ NodeType.IDENTIFIER) =
      [] := by
    rw [List.filter_eq_nil]
    intro c hc
    simp [hid c hc]
  rw [hfil]
  have hres : ∀ b ∈ batches,
      (match tselect (evaluate_and_append evalFn [] b) (projection.map PNode.identity) with
       | some sel => Except.ok sel
       | none => Except.error OptError.KeyError) = Except.ok (id b) := by
    intro b hb
    have hb0 : evaluate_and_append evalFn [] b = b := rfl
    rw [hb0, ← hcols b hb, tselect_self b (hnd b hb)]
    rfl
  have := mapM_except_ok
    (fun morsel =>
      match tselect (evaluate_and_append evalFn [] morsel) (projection.map PNode.identity) with
      | some sel => Except.ok sel
      | none => Except.error OptError.KeyError)
    id batches hres
  rw [List.map_id] at this
  exact this

/-- C9 witness: a two-identifier projection over its own two-column batch. -/
theorem C9_projection_witness :
    projection_execute (fun _ _ => []) [nodeA, nodeB]
        [⟨[("col_a".toList, [PyValue.int 1]), ("col_b".toList, [PyValue.int 2])]⟩] =
      .ok [⟨[("col_a".toList, [PyValue.int 1]), ("col_b".toList, [PyValue.int 2])]⟩] :=
  C9_projection_of_identities (fun _ _ => []) [nodeA, nodeB]
    [⟨[("col_a".toList, [PyValue.int 1]), ("col_b".toList, [PyValue.int 2])]⟩]
    (by
      intro c hc
      rcases List.mem_cons.mp hc with rfl | hc2
      · rfl
      · rcases List.mem_singleton.mp hc2 with rfl
        rfl)
    (by
      intro b hb
      rcases List.mem_singleton.mp hb with rfl
      rfl)
    (by
      intro b hb
      rcases List.mem_singleton.mp hb with rfl
      decide)

/-- C10: constructing a Connection succeeds exactly when the supplied
permission set — the full vocabulary when omitted — is a non-empty subset of
the vocabulary; otherwise (empty intersection, or a member outside the
vocabulary) it raises `PermissionsError`.  The vocabulary is universally
quantified (its contents live in `opteryx.constants.permissions`, outside
src/). -/
theorem C10_connection_permissions (PERMISSIONS : List Str)
    (permissions : Option (List Str)) :
    ((∃ r, connection_init PERMISSIONS permissions = .ok r) ↔
      (permissions.getD PERMISSIONS ≠ [] ∧
        ∀ p ∈ permissions.getD PERMISSIONS, p ∈ PERMISSIONS)) ∧
    (¬ (permissions.getD PERMISSIONS ≠ [] ∧
        ∀ p ∈ permissions.getD PERMISSIONS, p ∈ PERMISSIONS) →
      ∃ msg, connection_init PERMISSIONS permissions = .error (.PermissionsError msg)) := by
  have hA : ((dedupFirst (permissions.getD PERMISSIONS)).all
        (fun p => decide (p ∉ PERMISSIONS)) = true) ↔
      ∀ p ∈ permissions.getD PERMISSIONS, p ∉ PERMISSIONS := by
    rw [List.all_eq_true]
    constructor
    · intro h p hp
      simpa using h p ((dedupFirst_mem _ p).mpr hp)
    · intro h p hp
      simpa using h p ((dedupFirst_mem _ p).mp hp)
  have hB : ((dedupFirst (permissions.getD PERMISSIONS)).all
        (fun p => decide (p ∈ PERMISSIONS)) = true) ↔
      ∀ p ∈ permissions.getD PERMISSIONS, p ∈ PERMISSIONS := by
    rw [List.all_eq_true]
    constructor
    · intro h p hp
      simpa using h p ((dedupFirst_mem _ p).mpr hp)
    · intro h p hp
      simpa using h p ((dedupFirst_mem _ p).mp hp)
  by_cases ha : ∀ p ∈ permissions.getD PERMISSIONS, p ∉ PERMISSIONS
  · have hrun : connection_init PERMISSIONS permissions =
        .error (.PermissionsError "No valid permissions presented.".toList) := by
      unfold connection_init
      rw [if_pos (hA.mpr ha)]
    constructor
    · constructor
      · rintro ⟨r, hr⟩
        rw [hrun] at hr
        exact absurd hr (by simp)
      · rintro ⟨hne, hsub⟩
        obtain ⟨p, hp⟩ := List.exists_mem_of_ne_nil _ hne
        exact absurd (hsub p hp) (ha p hp)
    · intro _
      exact ⟨_, hrun⟩
  · by_cases hb : ∀ p ∈ permissions.getD PERMISSIONS, p ∈ PERMISSIONS
    · have hrun : connection_init PERMISSIONS permissions =
          .ok (dedupFirst (permissions.getD PERMISSIONS)) := by
        unfold connection_init
        rw [if_neg (fun h => ha (hA.mp h)), if_neg ?_]
        rw [Bool.not_eq_true, Bool.not_eq_false']
        exact hB.mpr hb
      have hne : permissions.getD PERMISSIONS ≠ [] := by
        push_neg at ha
        obtain ⟨p, hp, _⟩ := ha
        exact List.ne_nil_of_mem hp
      constructor
      · constructor
        · intro _
          exact ⟨hne, hb⟩
        · intro _
          exact ⟨_, hrun⟩
      · intro hcon
        exact absurd ⟨hne, hb⟩ hcon
    · have hrun : connection_init PERMISSIONS permissions =
          .error (.PermissionsError "Invalid permissions presented.".toList) := by
        unfold connection_init
        rw [if_neg (fun h => ha (hA.mp h)), if_pos ?_]
        rw [Bool.not_eq_true']
        rw [← Bool.not_eq_true]
        exact fun h => hb (hB.mp h)
      constructor
      · constructor
        · rintro ⟨r, hr⟩
          rw [hrun] at hr
          exact absurd hr (by simp)
        · rintro ⟨_, hsub⟩
          exact absurd hsub hb
      · intro _
        exact ⟨_, hrun⟩

/-- C10 witness: a permission outside the vocabulary is rejected with
`PermissionsError`, and a valid non-empty subset is accepted. -/
theorem C10_connection_permissions_witness :
    (∃ msg, connection_init ["Query".toList, "Analyze".toList]
        (some ["Nope".toList]) = .error (.PermissionsError msg)) ∧
    (∃ r, connection_init ["Query".toList, "Analyze".toList]
        (some ["Query".toList]) = .ok r) :=
  ⟨(C10_connection_permissions ["Query".toList, "Analyze".toList]
      (some ["Nope".toList])).2
    (fun h => absurd (h.2 "Nope".toList (List.mem_singleton.mpr rfl)) (by decide)),
   (C10_connection_permissions ["Query".toList, "Analyze".toList]
      (some ["Query".toList])).1.mpr
    ⟨by decide, by decide⟩⟩

